import Mathlib

/-!
Verification of the display-list node pool and directory of src/displaylist.c.

The serial-RAM backing store is modelled as two disjoint regions, exactly the
two regions the C code addresses: node records live at byte offsets
i*sizeof(DISPLAYNODE)+PAGEARRAYSIZE and are modelled as the map `nodes`
indexed by the node index i; the page array (directory) lives at byte
offsets below PAGEARRAYSIZE and is modelled as the map `pageArray` indexed
by the byte address. The two address ranges never overlap, so splitting the
store into two maps is faithful.

The header displaylist.h is not part of the sources, so the sentinel
constants and MAXNODES are modelled from the spec; MAXNODES is kept as an
explicit parameter of the operations that use it.
-/

namespace DisplayList

/-- Modelled from the spec: NULL_REF, the "no node" sentinel reference
(NULLPTR in the missing displaylist.h). Its only relevant property is that
it denotes no pool slot; we use the maximal 16-bit value. -/
def NULLPTR : Nat := 65535

/-- Modelled from the spec: END_MARK, the subpage sentinel terminating the
free list (NULLNODE in the missing displaylist.h). Its only relevant
property is being distinct from FREENODE and from real subpages 0..99. -/
def NULLNODE : Nat := 255

/-- Modelled from the spec: FREE_MARK, the subpage sentinel marking a node
that sits in the free list (FREENODE in the missing displaylist.h). -/
def FREENODE : Nat := 254

/-- Modelled from the spec: the directory region is 8 channels by 256 pages
of 2-byte node references, so PAGEARRAYSIZE = 8*256*sizeof(NODEPTR). -/
def PAGEARRAYSIZE : Nat := 8 * 256 * 2

/-- One fixed-size node record: pageindex (uint16), subpage (uint8),
next (NODEPTR, uint16), matching struct DISPLAYNODE. -/
structure DISPLAYNODE where
  pageindex : Nat
  subpage : Nat
  next : Nat
deriving DecidableEq, Repr

/-- The machine state: the node region and the page-array region of the
serial RAM, plus the static free-list head sFreeList. -/
structure State where
  nodes : Nat → DISPLAYNODE
  pageArray : Nat → Nat
  sFreeList : Nat

/-- SetNode: write node record to slot i of the node region
(serial-ram address i*sizeof(DISPLAYNODE)+PAGEARRAYSIZE). -/
def SetNode (s : State) (node : DISPLAYNODE) (i : Nat) : State :=
  { s with nodes := fun j => if j = i then node else s.nodes j }

/-- GetNode: read the node record in slot i of the node region. -/
def GetNode (s : State) (i : Nat) : DISPLAYNODE :=
  s.nodes i

/-- SetNodePtr: write a node reference at byte address addr of the
page array. -/
def SetNodePtr (s : State) (nodeptr addr : Nat) : State :=
  { s with pageArray := fun a => if a = addr then nodeptr else s.pageArray a }

/-- GetNodePtr: read the node reference at byte address addr of the
page array. -/
def GetNodePtr (s : State) (addr : Nat) : Nat :=
  s.pageArray addr

/-- NewNode: pop the head of the free list. If the head record carries
NULLNODE the code only logs an error: the free-list head is left unchanged
and the head reference is returned anyway. Otherwise sFreeList advances to
the head record next field. Returns the grabbed reference and the new
state. -/
def NewNode (s : State) : Nat × State :=
  let ix := s.sFreeList
  let node := GetNode s s.sFreeList
  if node.subpage = NULLNODE then
    (ix, s)
  else
    (ix, { s with sFreeList := node.next })

/-- ReturnToFreeList: clear slot i (pageindex 0, subpage FREENODE,
next = current sFreeList) and make it the new free-list head. -/
def ReturnToFreeList (s : State) (i : Nat) : State :=
  let node : DISPLAYNODE := { pageindex := 0, subpage := FREENODE, next := s.sFreeList }
  let s2 := SetNode s node i
  { s2 with sFreeList := i }

/-- The loop `for (i=MAXNODES-1; i>=0; i--) ReturnToFreeList(i);` of
MakeFreeList: `retLoop s n` performs ReturnToFreeList at i = n-1, n-2, ..., 0. -/
def retLoop (s : State) : Nat → State
  | 0 => s
  | n + 1 => retLoop (ReturnToFreeList s n) n

/-- The loop `for (i=0; i<PAGEARRAYSIZE; i+=sizeof(NODEPTR)) SetNodePtr(NULLPTR,i);`
of MakeFreeList: `clearLoop s k` writes NULLPTR at byte addresses
0, 2, ..., 2*(k-1), in ascending order. -/
def clearLoop (s : State) : Nat → State
  | 0 => s
  | n + 1 => SetNodePtr (clearLoop s n) NULLPTR (2 * n)

/-- MakeFreeList: set sFreeList to 0, write one sentinel node
(pageindex 0, next 0, subpage NULLNODE) into slot 0, return every slot
maxNodes-1 down to 0 to the free list, then clear the whole page array
to NULLPTR. maxNodes stands for the MAXNODES constant of the missing
header. -/
def MakeFreeList (s : State) (maxNodes : Nat) : State :=
  let s1 : State := { s with sFreeList := 0 }
  let s2 := SetNode s1 { pageindex := 0, subpage := NULLNODE, next := 0 } 0
  let s3 := retLoop s2 maxNodes
  clearLoop s3 (PAGEARRAYSIZE / 2)

/-- The channel normalization `mag = (mag-1) & 0x07` of LinkPage, with the
C uint8 wrap of mag-1 made explicit (mag is a uint8 argument). -/
def magNorm (mag : Nat) : Nat :=
  ((mag + 255) % 256) &&& 7

/-- The directory cell computation of LinkPage:
`cellAddress = ((mag<<8)+page)*sizeof(NODEPTR)` after normalization. -/
def cellAddress (mag page : Nat) : Nat :=
  ((magNorm mag <<< 8) + page) * 2

/-- LinkPage: read the cell (the result is unused because the
`np==NULLPTR || true` hack always takes the insert branch), grab a new
node from the free list, store its reference in the page-array cell, and
write the record (pageindex ix, subpage, next NULLPTR) into the new slot. -/
def LinkPage (s : State) (mag page subpage ix : Nat) : State :=
  let cell := cellAddress mag page
  let _np := GetNodePtr s cell
  let r := NewNode s
  let s1 := SetNodePtr r.2 r.1 cell
  SetNode s1 { pageindex := ix, subpage := subpage, next := NULLPTR } r.1

/-- Modelled from the spec: the observable content of one well-formed index
record after the external index store, content store and ParseLine
collaborator have been applied, namely the channel (mag), page and subpage
parsed from the record content. Those collaborators are outside src, so
ingestion is modelled as the LinkPage fold ScanPageList performs over the
records in index order. -/
structure IndexRecSpec where
  mag : Nat
  page : Nat
  subpage : Nat
deriving DecidableEq, Repr

/-- The ingestion loop of ScanPageList from record number ix onward: for
each record, LinkPage its parsed fields with its 0-based index. -/
def scanFrom (s : State) (ix : Nat) : List IndexRecSpec → State
  | [] => s
  | r :: rs => scanFrom (LinkPage s r.mag r.page r.subpage ix) (ix + 1) rs

/-- Modelled from the spec: ScanPageList over an already-opened pair of
stores, beginning with record 0. (The file-system calls of ScanPageList
are outside src; the loop body is LinkPage of the parsed triple.) -/
def ScanPageListModel (s : State) (recs : List IndexRecSpec) : State :=
  scanFrom s 0 recs

/-- A record is well formed when its channel is an external 1..8 channel
number and its page fits a uint8. -/
def WfRec (r : IndexRecSpec) : Prop :=
  1 ≤ r.mag ∧ r.mag ≤ 8 ∧ r.page < 256

instance (r : IndexRecSpec) : Decidable (WfRec r) := by
  unfold WfRec
  infer_instance

/-- Modelled from the spec: the parse of one content line; channel (mag)
value 9 is the ParseLine sentinel for "no valid header yet". A line also
carries its byte length so the bytes the header-scan loop consumes can be
compared with the record declared size. -/
structure Line where
  len : Nat
  mag : Nat
  page : Nat
  subpage : Nat
deriving DecidableEq, Repr

/-- The header-scan loop of ScanPageList (`p->mag=9; while (p->mag==9)
{ str=f_gets(...); ParseLine(p,str); }`): consume lines until one parses
to a channel other than 9; no bound against the record declared size is
checked. Returns the line that ended the loop together with the number of
bytes consumed, or none when the finite content runs out first. -/
def headerScan : List Line → Option (Line × Nat)
  | [] => none
  | l :: rest =>
    if l.mag = 9 then
      match headerScan rest with
      | none => none
      | some (p, n) => some (p, n + l.len)
    else
      some (l, l.len)

/-- Follow the next field n times starting from node start. -/
def followNext (s : State) (start : Nat) : Nat → Nat
  | 0 => start
  | n + 1 => followNext s (s.nodes start).next n

/-- Perform n successive NewNode calls, collecting the returned references
in order. -/
def allocSeq (s : State) : Nat → List Nat × State
  | 0 => ([], s)
  | n + 1 =>
    let r := NewNode s
    let rest := allocSeq r.2 n
    (r.1 :: rest.1, rest.2)

/-- The record a pool slot holds right after MakeFreeList on a pool of m
slots: cleared, marked FREENODE, linked to the next slot upward, with the
last slot linking back to slot 0. -/
def freshNode (m j : Nat) : DISPLAYNODE :=
  { pageindex := 0, subpage := FREENODE, next := if j + 1 = m then 0 else j + 1 }

/-- A sample pre-format state: arbitrary concrete contents. -/
def s0 : State :=
  { nodes := fun _ => { pageindex := 0, subpage := 0, next := 0 },
    pageArray := fun _ => 0,
    sFreeList := 0 }

/-- Two LinkPage calls for distinct pages on a freshly formatted 2-slot
pool: after them the free list has wrapped around to slot 0 while slot 0
is still bound in the directory. -/
def twoLinkedState : State :=
  LinkPage (LinkPage (MakeFreeList s0 2) 1 0 0 0) 1 1 0 1

/-- A third LinkPage for yet another distinct page on the same pool. -/
def threeLinkedState : State :=
  LinkPage twoLinkedState 1 2 0 2

/-- One LinkPage on a freshly formatted single-slot pool: the directory
cell of (channel 1, page 0) holds slot 0. -/
def oneSlotLinked : State :=
  LinkPage (MakeFreeList s0 1) 1 0 0 0

/-- A state whose directory cell for (channel 1, page 0) already holds a
reference (slot 5) while the free-list head is slot 0, whose record does
not carry a sentinel subpage. -/
def overwriteReady : State :=
  { nodes := fun _ => { pageindex := 0, subpage := 0, next := 1 },
    pageArray := fun _ => 5,
    sFreeList := 0 }

/-- A state whose free-list head record carries the NULLNODE sentinel:
the free list is exhausted. -/
def exhaustedState : State :=
  { nodes := fun _ => { pageindex := 0, subpage := NULLNODE, next := 3 },
    pageArray := fun _ => 0,
    sFreeList := 7 }

end DisplayList

set_option maxRecDepth 10000

namespace DisplayList

theorem retLoop_pageArray (n : Nat) (s : State) :
    (retLoop s n).pageArray = s.pageArray := by
  induction n generalizing s with
  | zero => rfl
  | succ n ih => simp [retLoop, ih, ReturnToFreeList, SetNode]

theorem retLoop_sFreeList (n : Nat) (s : State) :
    (retLoop s n).sFreeList = if n = 0 then s.sFreeList else 0 := by
  induction n generalizing s with
  | zero => simp [retLoop]
  | succ n ih =>
    rw [retLoop, ih]
    rcases Nat.eq_zero_or_pos n with h | h
    · subst h
      simp [ReturnToFreeList, SetNode]
    · simp [Nat.pos_iff_ne_zero.mp h]

theorem retLoop_nodes (n : Nat) (s : State) (j : Nat) :
    (retLoop s n).nodes j =
      if j < n then { pageindex := 0, subpage := FREENODE,
                      next := if j + 1 = n then s.sFreeList else j + 1 }
      else s.nodes j := by
  induction n generalizing s with
  | zero => simp [retLoop]
  | succ n ih =>
    rw [retLoop, ih]
    simp only [ReturnToFreeList, SetNode]
    rcases Nat.lt_trichotomy j n with h | h | h
    · have h1 : j < n + 1 := by omega
      have h2 : ¬ j + 1 = n + 1 := by omega
      by_cases h3 : j + 1 = n
      · simp [h, h1, h2, h3]
      · simp [h, h1, h2, h3]
    · subst h
      simp
    · have h1 : ¬ j < n := by omega
      have h2 : ¬ j < n + 1 := by omega
      have h3 : ¬ j = n := by omega
      simp [h1, h2, h3]

theorem clearLoop_nodes (k : Nat) (s : State) :
    (clearLoop s k).nodes = s.nodes := by
  induction k with
  | zero => rfl
  | succ k ih => simp [clearLoop, SetNodePtr, ih]

theorem clearLoop_sFreeList (k : Nat) (s : State) :
    (clearLoop s k).sFreeList = s.sFreeList := by
  induction k with
  | zero => rfl
  | succ k ih => simp [clearLoop, SetNodePtr, ih]

theorem MakeFreeList_sFreeList (s : State) (m : Nat) :
    (MakeFreeList s m).sFreeList = 0 := by
  simp only [MakeFreeList, clearLoop_sFreeList, retLoop_sFreeList, SetNode]
  split <;> rfl

theorem MakeFreeList_nodes (s : State) (m j : Nat) (h : j < m) :
    (MakeFreeList s m).nodes j = freshNode m j := by
  simp only [MakeFreeList, clearLoop_nodes, retLoop_nodes, SetNode, freshNode, h, if_pos]

theorem FREENODE_ne_NULLNODE : FREENODE ≠ NULLNODE := by decide

theorem NewNode_fresh (s : State) (m k : Nat)
    (hk : s.sFreeList = k) (hfresh : s.nodes k = freshNode m k) :
    NewNode s = (k, { s with sFreeList := if k + 1 = m then 0 else k + 1 }) := by
  simp only [NewNode, GetNode, hk, hfresh, freshNode]
  rw [if_neg FREENODE_ne_NULLNODE]

theorem LinkPage_fresh_nodes (s : State) (m k mag page sub ix j : Nat)
    (hk : s.sFreeList = k) (hfresh : s.nodes k = freshNode m k) :
    (LinkPage s mag page sub ix).nodes j =
      if j = k then { pageindex := ix, subpage := sub, next := NULLPTR }
      else s.nodes j := by
  simp only [LinkPage, NewNode_fresh s m k hk hfresh, SetNode, SetNodePtr]

theorem LinkPage_fresh_pageArray (s : State) (m k mag page sub ix a : Nat)
    (hk : s.sFreeList = k) (hfresh : s.nodes k = freshNode m k) :
    (LinkPage s mag page sub ix).pageArray a =
      if a = cellAddress mag page then k else s.pageArray a := by
  simp only [LinkPage, NewNode_fresh s m k hk hfresh, SetNode, SetNodePtr]

theorem LinkPage_fresh_sFreeList (s : State) (m k mag page sub ix : Nat)
    (hk : s.sFreeList = k) (hfresh : s.nodes k = freshNode m k) :
    (LinkPage s mag page sub ix).sFreeList = if k + 1 = m then 0 else k + 1 := by
  simp only [LinkPage, NewNode_fresh s m k hk hfresh, SetNode, SetNodePtr]

theorem NewNode_nodes (s : State) : (NewNode s).2.nodes = s.nodes := by
  simp only [NewNode, GetNode]
  split <;> rfl

theorem NewNode_pageArray (s : State) : (NewNode s).2.pageArray = s.pageArray := by
  simp only [NewNode, GetNode]
  split <;> rfl

end DisplayList

namespace DisplayList

theorem scanFrom_main (m : Nat) (rs : List IndexRecSpec) :
    ∀ (k : Nat) (s : State),
      k + rs.length ≤ m →
      (∀ j, k ≤ j → j < m → s.nodes j = freshNode m j) →
      s.sFreeList = (if k = m then 0 else k) →
      ((rs.map fun r => cellAddress r.mag r.page).Pairwise fun a b => a ≠ b) →
      (∀ i (hi : i < rs.length),
        (scanFrom s k rs).pageArray
            (cellAddress (rs.get ⟨i, hi⟩).mag (rs.get ⟨i, hi⟩).page) = k + i ∧
        (scanFrom s k rs).nodes (k + i) =
          { pageindex := k + i, subpage := (rs.get ⟨i, hi⟩).subpage, next := NULLPTR }) ∧
      (∀ a, (∀ r ∈ rs, a ≠ cellAddress r.mag r.page) →
        (scanFrom s k rs).pageArray a = s.pageArray a) ∧
      (∀ j, j < k → (scanFrom s k rs).nodes j = s.nodes j) := by
  induction rs with
  | nil =>
    intro k s _ _ _ _
    refine ⟨?_, ?_, ?_⟩
    · intro i hi; simp at hi
    · intro a _; simp [scanFrom]
    · intro j _; simp [scanFrom]
  | cons r rest ih =>
    intro k s hb hfresh hfl hpw
    have hkm : k < m := by simp only [List.length_cons] at hb; omega
    have hfl' : s.sFreeList = k := by rw [hfl, if_neg (by omega)]
    have hfrk : s.nodes k = freshNode m k := hfresh k (le_refl k) hkm
    have h1nodes : ∀ j, (LinkPage s r.mag r.page r.subpage k).nodes j =
        if j = k then { pageindex := k, subpage := r.subpage, next := NULLPTR }
        else s.nodes j :=
      fun j => LinkPage_fresh_nodes s m k r.mag r.page r.subpage k j hfl' hfrk
    have h1pa : ∀ a, (LinkPage s r.mag r.page r.subpage k).pageArray a =
        if a = cellAddress r.mag r.page then k else s.pageArray a :=
      fun a => LinkPage_fresh_pageArray s m k r.mag r.page r.subpage k a hfl' hfrk
    have h1fl : (LinkPage s r.mag r.page r.subpage k).sFreeList =
        if k + 1 = m then 0 else k + 1 :=
      LinkPage_fresh_sFreeList s m k r.mag r.page r.subpage k hfl' hfrk
    rw [List.map_cons, List.pairwise_cons] at hpw
    obtain ⟨hhead, htail⟩ := hpw
    have hb' : k + 1 + rest.length ≤ m := by
      simp only [List.length_cons] at hb; omega
    have hfresh' : ∀ j, k + 1 ≤ j → j < m →
        (LinkPage s r.mag r.page r.subpage k).nodes j = freshNode m j := by
      intro j hj1 hj2
      rw [h1nodes, if_neg (by omega)]
      exact hfresh j (by omega) hj2
    obtain ⟨ih1, ih2, ih3⟩ := ih (k + 1) (LinkPage s r.mag r.page r.subpage k)
      hb' hfresh' (by rw [h1fl]) htail
    refine ⟨?_, ?_, ?_⟩
    · intro i hi
      cases i with
      | zero =>
        refine ⟨?_, ?_⟩
        · show (scanFrom (LinkPage s r.mag r.page r.subpage k) (k + 1) rest).pageArray
              (cellAddress r.mag r.page) = k
          have hne : ∀ r' ∈ rest, cellAddress r.mag r.page ≠
              cellAddress r'.mag r'.page :=
            fun r' hr' => hhead _ (List.mem_map_of_mem _ hr')
          rw [ih2 _ hne, h1pa, if_pos rfl]
        · show (scanFrom (LinkPage s r.mag r.page r.subpage k) (k + 1) rest).nodes k =
              { pageindex := k, subpage := r.subpage, next := NULLPTR }
          rw [ih3 k (by omega), h1nodes, if_pos rfl]
      | succ i =>
        have hi' : i < rest.length := by simp only [List.length_cons] at hi; omega
        obtain ⟨hpa, hnd⟩ := ih1 i hi'
        refine ⟨?_, ?_⟩
        · show (scanFrom (LinkPage s r.mag r.page r.subpage k) (k + 1) rest).pageArray
              (cellAddress (rest.get ⟨i, hi'⟩).mag (rest.get ⟨i, hi'⟩).page) = k + (i + 1)
          rw [hpa]; omega
        · show (scanFrom (LinkPage s r.mag r.page r.subpage k) (k + 1) rest).nodes
              (k + (i + 1)) =
              { pageindex := k + (i + 1), subpage := (rest.get ⟨i, hi'⟩).subpage,
                next := NULLPTR }
          have hk1 : k + (i + 1) = k + 1 + i := by omega
          rw [hk1, hnd]
    · intro a ha
      show (scanFrom (LinkPage s r.mag r.page r.subpage k) (k + 1) rest).pageArray a =
          s.pageArray a
      rw [ih2 a (fun r' hr' => ha r' (List.mem_cons_of_mem _ hr')),
        h1pa, if_neg (ha r (List.mem_cons_self _ _))]
    · intro j hj
      show (scanFrom (LinkPage s r.mag r.page r.subpage k) (k + 1) rest).nodes j =
          s.nodes j
      rw [ih3 j (by omega), h1nodes, if_neg (by omega)]

end DisplayList

namespace DisplayList

theorem magNorm_of_channel (mag : Nat) (h1 : 1 ≤ mag) (h8 : mag ≤ 8) :
    magNorm mag = mag - 1 := by
  interval_cases mag <;> rfl

theorem magNorm_le_seven (mag : Nat) : magNorm mag ≤ 7 :=
  Nat.and_le_right

theorem cellAddress_inj (r1 r2 : IndexRecSpec) (h1 : WfRec r1) (h2 : WfRec r2)
    (hne : r1.mag ≠ r2.mag ∨ r1.page ≠ r2.page) :
    cellAddress r1.mag r1.page ≠ cellAddress r2.mag r2.page := by
  obtain ⟨h1a, h1b, h1c⟩ := h1
  obtain ⟨h2a, h2b, h2c⟩ := h2
  intro heq
  unfold cellAddress at heq
  rw [magNorm_of_channel _ h1a h1b, magNorm_of_channel _ h2a h2b,
    Nat.shiftLeft_eq, Nat.shiftLeft_eq] at heq
  have : (2 : Nat) ^ 8 = 256 := by norm_num
  rw [this] at heq
  rcases hne with hne | hne <;> omega

/-- Pairwise distinctness of (mag, page) pairs of well-formed records gives
pairwise distinctness of their directory cell addresses. -/
theorem pairwise_cells (recs : List IndexRecSpec)
    (hwf : ∀ r ∈ recs, WfRec r)
    (hdist : recs.Pairwise fun a b => a.mag ≠ b.mag ∨ a.page ≠ b.page) :
    (recs.map fun r => cellAddress r.mag r.page).Pairwise fun a b => a ≠ b := by
  rw [List.pairwise_map]
  induction recs with
  | nil => exact List.Pairwise.nil
  | cons r rest ih =>
    rw [List.pairwise_cons] at hdist ⊢
    refine ⟨?_, ?_⟩
    · intro r' hr'
      exact cellAddress_inj r r' (hwf r (List.mem_cons_self _ _))
        (hwf r' (List.mem_cons_of_mem _ hr')) (hdist.1 r' hr')
    · exact ih (fun r' hr' => hwf r' (List.mem_cons_of_mem _ hr')) hdist.2

end DisplayList

namespace DisplayList

/-- C1: the claim states that after Format (MakeFreeList) following next
from freeListHead MAX_NODES times visits every node once and ends at a
node whose subpage is END_MARK. On a freshly formatted 4-slot pool the
first part holds (slots 0,1,2,3 are visited once each) but the traversal
returns to slot 0, whose subpage is FREE_MARK, and no slot of the pool
carries END_MARK at all: the loop of MakeFreeList runs down to slot 0 and
overwrites the END_MARK sentinel it had just written there, leaving a
circular free list. -/
theorem C1_format_never_reaches_end_mark :
    (MakeFreeList s0 4).sFreeList = 0 ∧
    (followNext (MakeFreeList s0 4) 0 1 = 1 ∧
     followNext (MakeFreeList s0 4) 0 2 = 2 ∧
     followNext (MakeFreeList s0 4) 0 3 = 3 ∧
     followNext (MakeFreeList s0 4) 0 4 = 0) ∧
    ((MakeFreeList s0 4).nodes (followNext (MakeFreeList s0 4) 0 4)).subpage = FREENODE ∧
    FREENODE ≠ NULLNODE ∧
    (∀ j, j < 4 → ((MakeFreeList s0 4).nodes j).subpage ≠ NULLNODE) := by
  decide

/-- C3: the claim states that MAX_NODES + 1 Allocate calls on a fresh pool
yield OutOfNodes on the last call, detected by the head subpage being
END_MARK. On a freshly formatted 4-slot pool five successive NewNode calls
return 0,1,2,3 and then 0 again: before the fifth call the head record
still carries FREE_MARK, not END_MARK, so the error branch of NewNode is
not taken and no failure is reported. -/
theorem C3_exhaustion_never_detected :
    (allocSeq (MakeFreeList s0 4) 5).1 = [0, 1, 2, 3, 0] ∧
    (GetNode (allocSeq (MakeFreeList s0 4) 4).2
      ((allocSeq (MakeFreeList s0 4) 4).2.sFreeList)).subpage ≠ NULLNODE := by
  decide

/-- C4: the claim states that at every reachable state (with no Release
calls, so the unlink-before-release contract holds vacuously) Allocate
never returns a reference reachable from a Directory slot. After
formatting a 2-slot pool and LinkPage for pages (1,0) and (1,1), the next
NewNode returns slot 0 while the directory cell of (1,0) still holds
slot 0; after a third LinkPage for page (1,2), slot 0 is simultaneously
bound in the directory cells of (1,0) and (1,2). -/
theorem C4_alloc_returns_directory_reachable :
    (NewNode twoLinkedState).1 = 0 ∧
    GetNodePtr twoLinkedState (cellAddress 1 0) = 0 ∧
    GetNodePtr threeLinkedState (cellAddress 1 0) = 0 ∧
    GetNodePtr threeLinkedState (cellAddress 1 2) = 0 := by
  decide

/-- C7: the claim states the header-scan loop stops either on a valid
channel or on reaching the record declared size, failing with
MalformedHeader in the latter case. The loop of ScanPageList has no size
bound: for a record of declared size 10 whose first line (20 bytes) parses
to the sentinel channel 9, the loop reads a second line lying beyond the
record boundary and returns it as a success after consuming 40 bytes. -/
theorem C7_header_scan_overruns_record :
    headerScan [{ len := 20, mag := 9, page := 0, subpage := 0 },
                { len := 20, mag := 3, page := 16, subpage := 1 }] =
      some ({ len := 20, mag := 3, page := 16, subpage := 1 }, 40) ∧
    (10 : Nat) < 40 := by
  decide

/-- C5: two LinkPage calls with the same (channel, page) key and different
pageIndex values leave the directory cell holding a node whose pageindex
equals the second ix only: LinkPage unconditionally allocates a new node
and overwrites the slot regardless of any existing entry. -/
theorem C5_last_write_wins (s : State) (mag page sub1 ix1 sub2 ix2 : Nat)
    (h : ix1 ≠ ix2) :
    (GetNode (LinkPage (LinkPage s mag page sub1 ix1) mag page sub2 ix2)
      (GetNodePtr (LinkPage (LinkPage s mag page sub1 ix1) mag page sub2 ix2)
        (cellAddress mag page))).pageindex = ix2 ∧
    (GetNode (LinkPage (LinkPage s mag page sub1 ix1) mag page sub2 ix2)
      (GetNodePtr (LinkPage (LinkPage s mag page sub1 ix1) mag page sub2 ix2)
        (cellAddress mag page))).pageindex ≠ ix1 := by
  have key : (GetNode (LinkPage (LinkPage s mag page sub1 ix1) mag page sub2 ix2)
      (GetNodePtr (LinkPage (LinkPage s mag page sub1 ix1) mag page sub2 ix2)
        (cellAddress mag page))).pageindex = ix2 := by
    simp [LinkPage, GetNode, GetNodePtr, SetNode, SetNodePtr]
  refine ⟨key, ?_⟩
  rw [key]
  exact Ne.symm h

/-- C5 witness: a concrete instance of the last-write-wins theorem. -/
theorem C5_last_write_wins_witness :
    (0 : Nat) ≠ 1 ∧
    ((GetNode (LinkPage (LinkPage s0 1 0 0 0) 1 0 1 1)
      (GetNodePtr (LinkPage (LinkPage s0 1 0 0 0) 1 0 1 1)
        (cellAddress 1 0))).pageindex = 1 ∧
     (GetNode (LinkPage (LinkPage s0 1 0 0 0) 1 0 1 1)
      (GetNodePtr (LinkPage (LinkPage s0 1 0 0 0) 1 0 1 1)
        (cellAddress 1 0))).pageindex ≠ 0) :=
  ⟨by decide, C5_last_write_wins s0 1 0 0 0 1 1 (by decide)⟩

/-- C6: when the free-list head record does not carry END_MARK, NewNode
returns the current sFreeList, the new sFreeList is the popped record next
field, and no record of the backing store is written or cleared. -/
theorem C6_newnode_pops_head (s : State)
    (h : (GetNode s s.sFreeList).subpage ≠ NULLNODE) :
    (NewNode s).1 = s.sFreeList ∧
    (NewNode s).2.sFreeList = (GetNode s s.sFreeList).next ∧
    (NewNode s).2.nodes = s.nodes ∧
    (NewNode s).2.pageArray = s.pageArray := by
  have h' : ¬ (s.nodes s.sFreeList).subpage = NULLNODE := h
  simp [NewNode, GetNode, h']

/-- C6 witness: a concrete instance of the successful-pop theorem. -/
theorem C6_newnode_pops_head_witness :
    (GetNode s0 s0.sFreeList).subpage ≠ NULLNODE ∧
    ((NewNode s0).1 = s0.sFreeList ∧
     (NewNode s0).2.sFreeList = (GetNode s0 s0.sFreeList).next ∧
     (NewNode s0).2.nodes = s0.nodes ∧
     (NewNode s0).2.pageArray = s0.pageArray) :=
  ⟨by decide, C6_newnode_pops_head s0 (by decide)⟩

/-- C8: channel values 1, 8, 9 and 16 normalize to directory channel
indices 0, 7, 0, 7, and for every channel value and every uint8 page the
computed cell address stays inside the 8 by 256 directory region. -/
theorem C8_directory_bounds :
    magNorm 1 = 0 ∧ magNorm 8 = 7 ∧ magNorm 9 = 0 ∧ magNorm 16 = 7 ∧
    ∀ mag page, page < 256 → cellAddress mag page + 2 ≤ PAGEARRAYSIZE := by
  refine ⟨rfl, rfl, rfl, rfl, ?_⟩
  intro mag page hp
  have hm : magNorm mag ≤ 7 := magNorm_le_seven mag
  unfold cellAddress PAGEARRAYSIZE
  rw [Nat.shiftLeft_eq]
  have h2 : (2 : Nat) ^ 8 = 256 := by norm_num
  rw [h2]
  omega

/-- C8 witness: a concrete instance of the bounds theorem. -/
theorem C8_directory_bounds_witness :
    (255 : Nat) < 256 ∧ cellAddress 9 255 + 2 ≤ PAGEARRAYSIZE :=
  ⟨by decide, C8_directory_bounds.2.2.2.2 9 255 (by decide)⟩

/-- C10: when the free-list head record carries END_MARK, NewNode leaves
the whole state unchanged (in particular sFreeList) and still returns the
head reference, and a second call returns the same reference again. -/
theorem C10_exhausted_newnode_returns_head (s : State)
    (h : (GetNode s s.sFreeList).subpage = NULLNODE) :
    NewNode s = (s.sFreeList, s) ∧
    NewNode (NewNode s).2 = (s.sFreeList, s) := by
  have h' : (s.nodes s.sFreeList).subpage = NULLNODE := h
  have h1 : NewNode s = (s.sFreeList, s) := by simp [NewNode, GetNode, h']
  refine ⟨h1, ?_⟩
  rw [h1]
  exact h1

/-- C10 witness: a concrete exhausted state. -/
theorem C10_exhausted_newnode_returns_head_witness :
    (GetNode exhaustedState exhaustedState.sFreeList).subpage = NULLNODE ∧
    (NewNode exhaustedState = (exhaustedState.sFreeList, exhaustedState) ∧
     NewNode (NewNode exhaustedState).2 = (exhaustedState.sFreeList, exhaustedState)) :=
  ⟨by decide, C10_exhausted_newnode_returns_head exhaustedState (by decide)⟩

/-- C9 counterexample: on a freshly formatted single-slot pool, the cell of
(channel 1, page 0) is occupied by slot 0 after one LinkPage; a second
LinkPage with the same key overwrites that entry, and the record the old
reference points to is rewritten, because the exhausted (circular) free
list hands out the very slot the directory still references. -/
theorem C9_overwrite_can_rewrite_old_node :
    GetNodePtr oneSlotLinked (cellAddress 1 0) ≠ NULLPTR ∧
    GetNode (LinkPage oneSlotLinked 1 0 1 1)
        (GetNodePtr oneSlotLinked (cellAddress 1 0)) ≠
      GetNode oneSlotLinked (GetNodePtr oneSlotLinked (cellAddress 1 0)) := by
  decide

/-- C9 (amended): when LinkPage overwrites an occupied directory cell and
the slot NewNode hands out differs from the old reference, the record the
old reference points to is unchanged, the old reference is not pushed onto
the free list (the free list after LinkPage is exactly what NewNode left),
and only the directory cell and the newly allocated record are written. -/
theorem C9_frame_on_overwrite (s : State) (mag page sub ix : Nat)
    (_hold : GetNodePtr s (cellAddress mag page) ≠ NULLPTR)
    (hnew : (NewNode s).1 ≠ GetNodePtr s (cellAddress mag page)) :
    GetNode (LinkPage s mag page sub ix) (GetNodePtr s (cellAddress mag page)) =
      GetNode s (GetNodePtr s (cellAddress mag page)) ∧
    (LinkPage s mag page sub ix).sFreeList = (NewNode s).2.sFreeList ∧
    (∀ j, j ≠ (NewNode s).1 →
      (LinkPage s mag page sub ix).nodes j = s.nodes j) ∧
    (∀ a, a ≠ cellAddress mag page →
      (LinkPage s mag page sub ix).pageArray a = s.pageArray a) := by
  have hframe : ∀ j, j ≠ (NewNode s).1 →
      (LinkPage s mag page sub ix).nodes j = s.nodes j := by
    intro j hj
    simp only [LinkPage, SetNode, SetNodePtr]
    rw [if_neg hj]
    exact congrFun (NewNode_nodes s) j
  refine ⟨?_, ?_, hframe, ?_⟩
  · exact hframe _ (Ne.symm hnew)
  · simp only [LinkPage, SetNode, SetNodePtr]
  · intro a ha
    simp only [LinkPage, SetNode, SetNodePtr]
    rw [if_neg ha]
    exact congrFun (NewNode_pageArray s) a

/-- C9 witness: a concrete instance of the frame theorem where the old
reference (slot 5) differs from the allocated slot 0. -/
theorem C9_frame_on_overwrite_witness :
    GetNodePtr overwriteReady (cellAddress 1 0) ≠ NULLPTR ∧
    (NewNode overwriteReady).1 ≠ GetNodePtr overwriteReady (cellAddress 1 0) ∧
    GetNode (LinkPage overwriteReady 1 0 1 1)
        (GetNodePtr overwriteReady (cellAddress 1 0)) =
      GetNode overwriteReady (GetNodePtr overwriteReady (cellAddress 1 0)) :=
  ⟨by decide, by decide,
    (C9_frame_on_overwrite overwriteReady 1 0 1 1 (by decide) (by decide)).1⟩

/-- C2 counterexample: on a 2-slot pool, an index store of three well-formed
records with pairwise distinct (channel, page) pairs makes the lookup of
the first pair return a node whose pageindex is 2, not 0: the third
allocation silently reuses slot 0 because the free list wrapped around. -/
theorem C2_round_trip_fails_beyond_capacity :
    (∀ r ∈ ([{ mag := 1, page := 0, subpage := 0 },
             { mag := 1, page := 1, subpage := 0 },
             { mag := 1, page := 2, subpage := 0 }] : List IndexRecSpec), WfRec r) ∧
    ([{ mag := 1, page := 0, subpage := 0 },
      { mag := 1, page := 1, subpage := 0 },
      { mag := 1, page := 2, subpage := 0 }] : List IndexRecSpec).Pairwise
        (fun a b => a.mag ≠ b.mag ∨ a.page ≠ b.page) ∧
    (GetNode (ScanPageListModel (MakeFreeList s0 2)
        [{ mag := 1, page := 0, subpage := 0 },
         { mag := 1, page := 1, subpage := 0 },
         { mag := 1, page := 2, subpage := 0 }])
      (GetNodePtr (ScanPageListModel (MakeFreeList s0 2)
        [{ mag := 1, page := 0, subpage := 0 },
         { mag := 1, page := 1, subpage := 0 },
         { mag := 1, page := 2, subpage := 0 }])
        (cellAddress 1 0))).pageindex = 2 := by
  refine ⟨by decide, ?_, by decide⟩
  decide

/-- C2 (amended): for an index store of N well-formed records with pairwise
distinct (channel, page) pairs and N at most the pool capacity MAX_NODES,
ScanPageList followed by a directory lookup of each pair returns the node
whose pageindex is that pair 0-based position in the index. -/
theorem C2_round_trip_within_capacity (s : State) (m : Nat)
    (recs : List IndexRecSpec)
    (hlen : recs.length ≤ m)
    (hwf : ∀ r ∈ recs, WfRec r)
    (hdist : recs.Pairwise fun a b => a.mag ≠ b.mag ∨ a.page ≠ b.page) :
    ∀ i (hi : i < recs.length),
      (GetNode (ScanPageListModel (MakeFreeList s m) recs)
        (GetNodePtr (ScanPageListModel (MakeFreeList s m) recs)
          (cellAddress (recs.get ⟨i, hi⟩).mag (recs.get ⟨i, hi⟩).page))).pageindex = i := by
  intro i hi
  obtain ⟨h1, _, _⟩ := scanFrom_main m recs 0 (MakeFreeList s m)
    (by omega)
    (fun j _ hj => MakeFreeList_nodes s m j hj)
    (by rw [MakeFreeList_sFreeList]; split <;> rfl)
    (pairwise_cells recs hwf hdist)
  obtain ⟨hpa, hnd⟩ := h1 i hi
  simp only [ScanPageListModel, GetNode, GetNodePtr]
  rw [hpa, hnd]
  show 0 + i = i
  omega

/-- C2 witness: a concrete two-record instance of the bounded round-trip
theorem, looked up at position 1. -/
theorem C2_round_trip_within_capacity_witness :
    (GetNode (ScanPageListModel (MakeFreeList s0 2)
        [{ mag := 1, page := 0, subpage := 0 },
         { mag := 2, page := 5, subpage := 3 }])
      (GetNodePtr (ScanPageListModel (MakeFreeList s0 2)
        [{ mag := 1, page := 0, subpage := 0 },
         { mag := 2, page := 5, subpage := 3 }])
        (cellAddress 2 5))).pageindex = 1 :=
  C2_round_trip_within_capacity s0 2
    [{ mag := 1, page := 0, subpage := 0 }, { mag := 2, page := 5, subpage := 3 }]
    (by decide) (by decide) (by decide) 1 (by decide)

end DisplayList
